import Mathlib

/-!
Shallow embedding of `src/radar_generator.py` (radar-score image generator).

Python floats are modelled as exact rationals extended with NaN and the two
infinities (`PyFloat`).  Exceptions are modelled with `Except String`.
Python `round` on a float is round-half-to-even (`roundHalfEven`), and
Python list indexing (negative wrap, IndexError) is `pyIndex`.
-/

/-- A pixel point `(x, y)`; the source's `Point = tuple[int, int]`. -/
abbrev Point := ℤ × ℤ

/-- A Python float: NaN, +inf, -inf, or a finite value (modelled exactly). -/
inductive PyFloat where
  | nan : PyFloat
  | inf : PyFloat
  | ninf : PyFloat
  | val (q : ℚ) : PyFloat
deriving DecidableEq

/-- Python `<` on floats: any comparison with NaN is false. -/
def pyLt : PyFloat → PyFloat → Bool
  | PyFloat.nan, _ => false
  | _, PyFloat.nan => false
  | PyFloat.inf, _ => false
  | _, PyFloat.inf => true
  | PyFloat.ninf, PyFloat.ninf => false
  | PyFloat.ninf, PyFloat.val _ => true
  | PyFloat.val _, PyFloat.ninf => false
  | PyFloat.val a, PyFloat.val b => decide (a < b)

/-- Python `!=` on floats: NaN is unequal to everything, itself included. -/
def pyNe : PyFloat → PyFloat → Bool
  | PyFloat.nan, _ => true
  | _, PyFloat.nan => true
  | PyFloat.inf, PyFloat.inf => false
  | PyFloat.ninf, PyFloat.ninf => false
  | PyFloat.inf, _ => true
  | PyFloat.ninf, _ => true
  | _, PyFloat.inf => true
  | _, PyFloat.ninf => true
  | PyFloat.val a, PyFloat.val b => decide (a ≠ b)

/-- Python two-argument `min(a, b)`: returns `b` iff `b < a`. -/
def pyMin (a b : PyFloat) : PyFloat := if pyLt b a then b else a

/-- Python two-argument `max(a, b)`: returns `b` iff `a < b`. -/
def pyMax (a b : PyFloat) : PyFloat := if pyLt a b then b else a

/-- Python list indexing `xs[i]`: negative indices wrap from the end,
out-of-range raises `IndexError`. -/
def pyIndex {α : Type} (xs : List α) (i : ℤ) : Except String α :=
  let j := if i < 0 then i + xs.length else i
  if j < 0 then Except.error "IndexError: list index out of range"
  else
    match xs.get? j.toNat with
    | some a => Except.ok a
    | none => Except.error "IndexError: list index out of range"

/-- Python `round` on a float, tie-breaking to the even integer. -/
def roundHalfEven (q : ℚ) : ℤ :=
  let f := ⌊q⌋
  let r := q - f
  if r < 1 / 2 then f
  else if 1 / 2 < r then f + 1
  else if 2 ∣ f then f else f + 1

/-- The source's epsilon `1e-9` used for floor tolerance. -/
def eps : ℚ := 1 / 1000000000

/-- `interp_point(p0, p1, t)` from the source: per-coordinate linear
interpolation `p0 + (p1 - p0) * t`. -/
def interp_point (p0 p1 : Point) (t : ℚ) : ℚ × ℚ :=
  (p0.1 + (p1.1 - p0.1) * t, p0.2 + (p1.2 - p0.2) * t)

/-- Lines 35-44 of `point_for_score`, operating on the clamped score `q`:
segment selection, the near-integer shortcut, and interpolation.
`anchor_0_to_10[lo]` already holds integers, so `int(x)` is the identity
in the shortcut branch. -/
def pfsCore (anchor_0_to_10 : List Point) (q : ℚ) : Except String Point :=
  let lo : ℤ := ⌊q + eps⌋
  let hi : ℤ := min (lo + 1) 10
  let t : ℚ := q - lo
  if t ≤ eps ∨ lo = hi then
    match pyIndex anchor_0_to_10 lo with
    | Except.ok p => Except.ok p
    | Except.error e => Except.error e
  else
    match pyIndex anchor_0_to_10 lo, pyIndex anchor_0_to_10 hi with
    | Except.ok p0, Except.ok p1 =>
        Except.ok (roundHalfEven (interp_point p0 p1 t).1,
                   roundHalfEven (interp_point p0 p1 t).2)
    | Except.error e, _ => Except.error e
    | Except.ok _, Except.error e => Except.error e

/-- `point_for_score(anchor_0_to_10, score)` from the source: length check,
NaN-to-0 replacement, clamping into `[0, 10]` via `max(0.0, min(10.0, s))`,
then `pfsCore`.  The non-finite match arms model the exception `math.floor`
would raise on an infinite argument; they are unreachable after clamping. -/
def point_for_score (anchor_0_to_10 : List Point) (score : PyFloat) :
    Except String Point :=
  if anchor_0_to_10.length ≠ 11 then
    Except.error "Each dimension must provide 11 points for scores 0..10"
  else
    let s1 := if pyNe score score then PyFloat.val 0 else score
    match pyMax (PyFloat.val 0) (pyMin (PyFloat.val 10) s1) with
    | PyFloat.val q => pfsCore anchor_0_to_10 q
    | PyFloat.nan => Except.error "ValueError: cannot convert float NaN to integer"
    | PyFloat.inf => Except.error "OverflowError: cannot convert float infinity to integer"
    | PyFloat.ninf => Except.error "OverflowError: cannot convert float infinity to integer"

/-- The clamped score as a rational: NaN becomes 0, then saturate to [0, 10]. -/
def clampQ : PyFloat → ℚ
  | PyFloat.nan => 0
  | PyFloat.inf => 10
  | PyFloat.ninf => 0
  | PyFloat.val q => max 0 (min 10 q)

/-- The white-rectangle and text geometry drawn for one score label
(lines 98-103): the clamped anchor's padded background rectangle and the
final text position, drawn 26px above the clamped `y`. -/
structure LabelDraw where
  rect : ℤ × ℤ × ℤ × ℤ
  textPos : ℤ × ℤ
deriving DecidableEq

/-- One iteration of the score-label loop (lines 93-103): clamp the
requested position so the text stays inside the canvas with an 8px
right/bottom margin and a `max 0` floor, pad the white rectangle by 10px,
and draw the text at `(x, y - 26)`.  `tw`/`th` are the measured text
width/height from `textbbox`. -/
def draw_label (pos : Point) (tw th width height : ℤ) : LabelDraw :=
  let x := max 0 (min pos.1 (width - tw - 8))
  let y := max 0 (min pos.2 (height - th - 8))
  let pad : ℤ := 10
  { rect := (x - pad, y - pad, x + tw + pad, y + th + pad)
    textPos := (x, y - 26) }

/-- Stated from the spec's words (for comparison with `draw_label`): the
label placement clamp, `x` into `[0, width - textWidth - 8]` and `y` into
`[0, height - textHeight - 8]`, with a `max 0` floor on the left/top. -/
def label_clamp_spec (pos : Point) (tw th width height : ℤ) : ℤ × ℤ :=
  (max 0 (min pos.1 (width - tw - 8)), max 0 (min pos.2 (height - th - 8)))

/-- `draw_radar_by_anchors` from the source, restricted to its pure
geometry: the two length validations (in source order, before any image is
opened or drawn), the six polygon vertices, the score-label geometry, the
title draw list, and the final-score label.  `measure` abstracts
`draw2.textbbox` applied to `str(score)` with the loaded font; the zips
mirror the source's `zip` calls, which truncate to the shorter list.
Pixel compositing, the timestamp text and file I/O live outside the model. -/
def draw_radar_by_anchors (measure : PyFloat → ℤ × ℤ) (width height : ℤ)
    (scores_0_to_10 : List PyFloat) (final_score : ℤ)
    (anchors : List (List Point)) (label_positions : List Point)
    (name_title : List String) (title_positions : List Point) :
    Except String (List Point × List LabelDraw × List (Point × String) × (Point × ℤ)) :=
  if scores_0_to_10.length ≠ 6 then
    Except.error "scores_0_to_10 must contain exactly 6 values"
  else if anchors.length ≠ 6 then
    Except.error "anchors must contain exactly 6 dimensions"
  else do
    let points ← (scores_0_to_10.zip anchors).mapM
      (fun sa => point_for_score sa.2 sa.1)
    let labels := (label_positions.zip scores_0_to_10).map
      (fun ps => draw_label ps.1 (measure ps.2).1 (measure ps.2).2 width height)
    let titles := title_positions.zip name_title
    pure (points, labels, titles, (((220 : ℤ), (2000 : ℤ)), final_score))

/-- The candidate font names tried by `_load_font`, in priority order. -/
def font_candidates : List String :=
  ["msyh.ttc", "Microsoft YaHei.ttf", "simhei.ttf", "arial.ttf"]

/-- The result of font loading: a named truetype font at the requested
size, or Pillow's built-in default font. -/
inductive LoadedFont where
  | truetype (name : String) (size : ℕ)
  | fallback
deriving DecidableEq

/-- The candidate loop of `_load_font`: `ImageFont.truetype` succeeding for
a name is modelled by the oracle `ok`; an `OSError` is caught and the loop
continues with the next candidate. -/
def load_font_loop (ok : String → Bool) (size : ℕ) : List String → LoadedFont
  | [] => LoadedFont.fallback
  | c :: rest =>
      if ok c then LoadedFont.truetype c size else load_font_loop ok size rest

/-- `_load_font(size)` from the source, parametrised by the availability
oracle `ok`: try `font_candidates` in order, fall back to the default. -/
def _load_font (ok : String → Bool) (size : ℕ) : LoadedFont :=
  load_font_loop ok size font_candidates

/-- The crop box handed to `avatar.crop` and the target of the following
`resize` (lines 131-135 of `add_avatar`). -/
structure AvatarCrop where
  left : ℕ
  top : ℕ
  right : ℕ
  bottom : ℕ
  resize_to : ℕ × ℕ
deriving DecidableEq

/-- Lines 131-135 of `add_avatar`: center-crop to a square of side
`min(w, h)` with `left = (w - min_side) // 2`, `top = (h - min_side) // 2`,
then resize to `size × size`. -/
def add_avatar_crop (w h size : ℕ) : AvatarCrop :=
  let min_side := min w h
  let left := (w - min_side) / 2
  let top := (h - min_side) / 2
  { left := left, top := top, right := left + min_side,
    bottom := top + min_side, resize_to := (size, size) }

/-- The first demo anchor set from the source (`demo`, line 179). -/
def demo_anchor_0 : List Point :=
  [(770, 1210), (770, 1167), (770, 1123), (770, 1082), (770, 1040),
   (770, 1000), (770, 960), (770, 926), (770, 895), (770, 858), (770, 825)]


/-- Anchor list for the C1 counterexample: `anchors[k] = (100 k, 0)`. -/
def cex_anchors : List Point :=
  [(0, 0), (100, 0), (200, 0), (300, 0), (400, 0), (500, 0), (600, 0),
   (700, 0), (800, 0), (900, 0), (1000, 0)]

/-- The C1 counterexample score `2 - 5e-10`, just below the integer 2. -/
def cexScore : ℚ := 2 - 1 / 2000000000

theorem clamp_match (s : PyFloat) :
    pyMax (PyFloat.val 0) (pyMin (PyFloat.val 10)
      (if pyNe s s then PyFloat.val 0 else s)) = PyFloat.val (clampQ s) := by
  cases s with
  | nan => rfl
  | inf => rfl
  | ninf => rfl
  | val q =>
      have h1 : (if pyNe (PyFloat.val q) (PyFloat.val q) = true then PyFloat.val 0
          else PyFloat.val q) = PyFloat.val q := by
        simp [pyNe]
      rw [h1]
      by_cases h10 : q < 10
      · have h2 : pyMin (PyFloat.val 10) (PyFloat.val q) = PyFloat.val q := by
          simp [pyMin, pyLt, h10]
        rw [h2]
        by_cases h0 : 0 < q
        · have h3 : pyMax (PyFloat.val 0) (PyFloat.val q) = PyFloat.val q := by
            simp [pyMax, pyLt, h0]
          rw [h3]
          simp only [clampQ, PyFloat.val.injEq]
          rw [min_eq_right h10.le, max_eq_right h0.le]
        · have h3 : pyMax (PyFloat.val 0) (PyFloat.val q) = PyFloat.val 0 := by
            simp [pyMax, pyLt, h0]
          rw [h3]
          simp only [clampQ, PyFloat.val.injEq]
          push_neg at h0
          rw [min_eq_right h10.le, max_eq_left h0]
      · have h2 : pyMin (PyFloat.val 10) (PyFloat.val q) = PyFloat.val 10 := by
          simp [pyMin, pyLt, h10]
        rw [h2]
        have h3 : pyMax (PyFloat.val 0) (PyFloat.val 10) = PyFloat.val 10 := by
          simp [pyMax, pyLt]
        rw [h3]
        simp only [clampQ, PyFloat.val.injEq]
        push_neg at h10
        rw [min_eq_left h10, max_eq_right (by norm_num : (0:ℚ) ≤ 10)]

theorem pfs_eq (anchors : List Point) (s : PyFloat) (h : anchors.length = 11) :
    point_for_score anchors s = pfsCore anchors (clampQ s) := by
  unfold point_for_score
  rw [if_neg (by simp [h])]
  simp only [clamp_match]

theorem pyIndex_ok {α : Type} (xs : List α) (d : α) (i : ℤ) (h0 : 0 ≤ i)
    (h : i.toNat < xs.length) : pyIndex xs i = Except.ok (xs.getD i.toNat d) := by
  have hi : ¬ i < 0 := not_lt.mpr h0
  unfold pyIndex
  simp only [if_neg hi]
  rw [List.getD_eq_getElem _ _ h, List.get?_eq_get h]
  rfl

theorem lo_lb (q : ℚ) (h0 : 0 ≤ q) : 0 ≤ ⌊q + eps⌋ :=
  Int.floor_nonneg.mpr (by unfold eps; linarith)

theorem lo_ub (q : ℚ) (h1 : q ≤ 10) : ⌊q + eps⌋ ≤ 10 := by
  have h : ⌊q + eps⌋ < 11 := by
    rw [Int.floor_lt]
    have : q + eps < 11 := by unfold eps; linarith
    exact_mod_cast this
  omega

theorem lo_ge_floor (q : ℚ) : ⌊q⌋ ≤ ⌊q + eps⌋ :=
  Int.floor_le_floor (by unfold eps; linarith)

theorem lo_floor_or_ceil (q : ℚ) : ⌊q + eps⌋ = ⌊q⌋ ∨ ⌊q + eps⌋ = ⌈q⌉ := by
  by_cases hlo : ⌊q + eps⌋ = ⌊q⌋
  · exact Or.inl hlo
  · right
    have h1 : ⌊q⌋ ≤ ⌊q + eps⌋ := lo_ge_floor q
    have h2 : ⌊q + eps⌋ ≤ ⌊q⌋ + 1 := by
      have hq : q + eps < (⌊q⌋ : ℚ) + 2 := by
        have := Int.lt_floor_add_one q
        unfold eps
        linarith
      have : ⌊q + eps⌋ < ⌊q⌋ + 2 := by
        rw [Int.floor_lt]
        push_cast
        linarith
      omega
    have heq : ⌊q + eps⌋ = ⌊q⌋ + 1 := by omega
    have hfrac : (⌊q⌋ : ℚ) < q := by
      have : (⌊q⌋ : ℚ) + 1 ≤ q + eps := by
        have : ((⌊q⌋ + 1 : ℤ) : ℚ) ≤ q + eps := by
          rw [← heq]
          exact Int.floor_le (q + eps)
        push_cast at this
        linarith
      unfold eps at this
      linarith
    have hceil : ⌈q⌉ = ⌊q⌋ + 1 := by
      rw [Int.ceil_eq_iff]
      constructor
      · push_cast
        linarith
      · push_cast
        have := Int.lt_floor_add_one q
        linarith
    omega

theorem roundHalfEven_lb (a : ℤ) (v : ℚ) (h : (a : ℚ) ≤ v) :
    a ≤ roundHalfEven v := by
  have hf : a ≤ ⌊v⌋ := Int.le_floor.mpr h
  simp only [roundHalfEven]
  split_ifs <;> omega

theorem roundHalfEven_ub (b : ℤ) (v : ℚ) (h : v ≤ (b : ℚ)) :
    roundHalfEven v ≤ b := by
  have hf : ⌊v⌋ ≤ b := by
    have := Int.floor_le_floor h
    simpa using this
  have hcast : ((⌊v⌋ : ℤ) : ℚ) ≤ v := Int.floor_le v
  simp only [roundHalfEven]
  split_ifs with hr1 hr2 hr3
  · exact hf
  · have : (⌊v⌋ : ℚ) + 1 / 2 < (b : ℚ) := by linarith
    have : ⌊v⌋ < b := by
      by_contra hc
      push_neg at hc
      have : (b : ℚ) ≤ (⌊v⌋ : ℚ) := by exact_mod_cast hc
      linarith
    omega
  · exact hf
  · have hr : v - ⌊v⌋ = 1 / 2 := by linarith
    have : (⌊v⌋ : ℚ) + 1 / 2 ≤ (b : ℚ) := by linarith
    have : ⌊v⌋ < b := by
      by_contra hc
      push_neg at hc
      have : (b : ℚ) ≤ (⌊v⌋ : ℚ) := by exact_mod_cast hc
      linarith
    omega

theorem roundHE_interp_fst (p0 p1 : Point) (t : ℚ) (ht0 : 0 ≤ t) (ht1 : t ≤ 1) :
    min p0.1 p1.1 ≤ roundHalfEven (interp_point p0 p1 t).1 ∧
      roundHalfEven (interp_point p0 p1 t).1 ≤ max p0.1 p1.1 := by
  unfold interp_point
  rcases le_total p0.1 p1.1 with hle | hle
  · have hc : ((p0.1 : ℚ)) ≤ (p1.1 : ℚ) := by exact_mod_cast hle
    have hv1 : (p0.1 : ℚ) ≤ (p0.1 : ℚ) + ((p1.1 : ℚ) - p0.1) * t := by nlinarith
    have hv2 : (p0.1 : ℚ) + ((p1.1 : ℚ) - p0.1) * t ≤ (p1.1 : ℚ) := by nlinarith
    constructor
    · rw [min_eq_left hle]
      exact roundHalfEven_lb _ _ (by push_cast; linarith)
    · rw [max_eq_right hle]
      exact roundHalfEven_ub _ _ (by push_cast; linarith)
  · have hc : ((p1.1 : ℚ)) ≤ (p0.1 : ℚ) := by exact_mod_cast hle
    have hv1 : (p1.1 : ℚ) ≤ (p0.1 : ℚ) + ((p1.1 : ℚ) - p0.1) * t := by nlinarith
    have hv2 : (p0.1 : ℚ) + ((p1.1 : ℚ) - p0.1) * t ≤ (p0.1 : ℚ) := by nlinarith
    constructor
    · rw [min_eq_right hle]
      exact roundHalfEven_lb _ _ (by push_cast; linarith)
    · rw [max_eq_left hle]
      exact roundHalfEven_ub _ _ (by push_cast; linarith)

theorem roundHE_interp_snd (p0 p1 : Point) (t : ℚ) (ht0 : 0 ≤ t) (ht1 : t ≤ 1) :
    min p0.2 p1.2 ≤ roundHalfEven (interp_point p0 p1 t).2 ∧
      roundHalfEven (interp_point p0 p1 t).2 ≤ max p0.2 p1.2 := by
  have := roundHE_interp_fst (p0.2, p0.1) (p1.2, p1.1) t ht0 ht1
  unfold interp_point at this ⊢
  simpa using this

theorem pfsCore_shortcut (anchors : List Point) (q : ℚ) (h : anchors.length = 11)
    (h0 : 0 ≤ q) (h1 : q ≤ 10)
    (hb : q - ⌊q + eps⌋ ≤ eps ∨ (⌊q + eps⌋ : ℤ) = min (⌊q + eps⌋ + 1) 10) :
    pfsCore anchors q = Except.ok (anchors.getD (⌊q + eps⌋).toNat ((0 : ℤ), (0 : ℤ))) := by
  have hl0 := lo_lb q h0
  have hl1 := lo_ub q h1
  have hidx : (⌊q + eps⌋).toNat < anchors.length := by
    rw [h]; omega
  simp only [pfsCore]
  rw [if_pos hb, pyIndex_ok anchors (0, 0) _ hl0 hidx]

theorem pfsCore_interp (anchors : List Point) (q : ℚ) (h : anchors.length = 11)
    (h0 : 0 ≤ q) (h1 : q ≤ 10) (ht : eps < q - ⌊q + eps⌋) :
    pfsCore anchors q =
      Except.ok
        (roundHalfEven (interp_point (anchors.getD (⌊q + eps⌋).toNat (0, 0))
            (anchors.getD ((⌊q + eps⌋).toNat + 1) (0, 0)) (q - ⌊q + eps⌋)).1,
         roundHalfEven (interp_point (anchors.getD (⌊q + eps⌋).toNat (0, 0))
            (anchors.getD ((⌊q + eps⌋).toNat + 1) (0, 0)) (q - ⌊q + eps⌋)).2) := by
  have hl0 := lo_lb q h0
  have heps : (0 : ℚ) < eps := by unfold eps; norm_num
  have hlq : (⌊q + eps⌋ : ℚ) < q := by linarith
  have hl9 : ⌊q + eps⌋ ≤ 9 := by
    have hq10 : (⌊q + eps⌋ : ℚ) < 10 := lt_of_lt_of_le hlq h1
    have : ⌊q + eps⌋ < 10 := by exact_mod_cast hq10
    omega
  have hmin : min (⌊q + eps⌋ + 1) 10 = ⌊q + eps⌋ + 1 := min_eq_left (by omega)
  have hidx1 : (⌊q + eps⌋).toNat < anchors.length := by rw [h]; omega
  have hidx2 : (⌊q + eps⌋ + 1).toNat < anchors.length := by rw [h]; omega
  have htn : (⌊q + eps⌋ + 1).toNat = (⌊q + eps⌋).toNat + 1 := by omega
  have hcond : ¬ (q - ⌊q + eps⌋ ≤ eps ∨ (⌊q + eps⌋ : ℤ) = ⌊q + eps⌋ + 1) := by
    push_neg
    exact ⟨by linarith, by omega⟩
  simp only [pfsCore, hmin]
  rw [if_neg hcond, pyIndex_ok anchors (0, 0) _ hl0 hidx1,
    pyIndex_ok anchors (0, 0) _ (by omega) hidx2, htn]

theorem clampQ_mem (s : PyFloat) : 0 ≤ clampQ s ∧ clampQ s ≤ 10 := by
  cases s with
  | nan => norm_num [clampQ]
  | inf => norm_num [clampQ]
  | ninf => norm_num [clampQ]
  | val q =>
      simp only [clampQ]
      exact ⟨le_max_left _ _, max_le (by norm_num) (min_le_left _ _)⟩

theorem pfs_ok (anchors : List Point) (h : anchors.length = 11) (s : PyFloat) :
    ∃ p : Point, point_for_score anchors s = Except.ok p := by
  rw [pfs_eq anchors s h]
  obtain ⟨h0, h1⟩ := clampQ_mem s
  by_cases hb : clampQ s - ⌊clampQ s + eps⌋ ≤ eps ∨
      (⌊clampQ s + eps⌋ : ℤ) = min (⌊clampQ s + eps⌋ + 1) 10
  · exact ⟨_, pfsCore_shortcut anchors _ h h0 h1 hb⟩
  · push_neg at hb
    exact ⟨_, pfsCore_interp anchors _ h h0 h1 hb.1⟩

theorem floor_int_eps (k : ℤ) : ⌊(k : ℚ) + eps⌋ = k := by
  rw [Int.floor_eq_iff]
  constructor
  · unfold eps; linarith
  · unfold eps; linarith

theorem pfs_int_shortcut (anchors : List Point) (h : anchors.length = 11) (k : ℤ)
    (hk0 : 0 ≤ k) (hk1 : k ≤ 10) :
    pfsCore anchors (k : ℚ) = Except.ok (anchors.getD k.toNat (0, 0)) := by
  have hfl := floor_int_eps k
  have hres := pfsCore_shortcut anchors (k : ℚ) h (by exact_mod_cast hk0)
    (by exact_mod_cast hk1) (Or.inl (by rw [hfl]; norm_num [eps]))
  rw [hfl] at hres
  exact hres

theorem clampQ_idem (s : PyFloat) : clampQ (PyFloat.val (clampQ s)) = clampQ s := by
  obtain ⟨h0, h1⟩ := clampQ_mem s
  have hu : clampQ (PyFloat.val (clampQ s)) = max 0 (min 10 (clampQ s)) := rfl
  rw [hu, min_eq_right h1, max_eq_right h0]

theorem pfs_norm (anchors : List Point) (h : anchors.length = 11) (s : PyFloat) :
    point_for_score anchors s = point_for_score anchors (PyFloat.val (clampQ s)) := by
  rw [pfs_eq anchors s h, pfs_eq anchors (PyFloat.val (clampQ s)) h, clampQ_idem]

/-- C2: at an integer score `k` in `0..10`, `point_for_score` returns
`anchors[k]` unchanged, with no interpolation; in particular score 0 gives
`anchors[0]` and score 10 gives `anchors[10]`, for any 11-entry anchors. -/
theorem c2_integer_scores (anchors : List Point) (h : anchors.length = 11)
    (k : ℕ) (hk : k ≤ 10) :
    point_for_score anchors (PyFloat.val k) = Except.ok (anchors.getD k (0, 0)) := by
  rw [pfs_eq anchors _ h]
  have hk10 : ((k : ℕ) : ℚ) ≤ 10 := by exact_mod_cast hk
  have hk0 : (0 : ℚ) ≤ ((k : ℕ) : ℚ) := by positivity
  have hc : clampQ (PyFloat.val (k : ℚ)) = ((k : ℤ) : ℚ) := by
    simp only [clampQ]
    rw [min_eq_right hk10, max_eq_right hk0]
    rfl
  rw [hc, pfs_int_shortcut anchors h k (by positivity) (by exact_mod_cast hk)]
  have ht : ((k : ℤ)).toNat = k := by omega
  rw [ht]

/-- Witness for C2: the first demo anchor set at score 5 yields its sixth
anchor `(770, 1000)`. -/
theorem c2_integer_scores_w :
    point_for_score demo_anchor_0 (PyFloat.val ((5 : ℕ) : ℚ)) =
      Except.ok (770, 1000) := by
  rw [c2_integer_scores demo_anchor_0 (by decide) 5 (by norm_num)]
  rfl

/-- C3: `point_for_score` normalizes its score before segment selection:
NaN is treated as 0 and out-of-range scores silently saturate into
`[0, 10]`; score -5 behaves as 0, score 15 as 10, NaN as 0, and with 11
anchors no score is rejected. -/
theorem c3_clamping (anchors : List Point) :
    point_for_score anchors (PyFloat.val (-5)) =
        point_for_score anchors (PyFloat.val 0) ∧
    point_for_score anchors (PyFloat.val 15) =
        point_for_score anchors (PyFloat.val 10) ∧
    point_for_score anchors PyFloat.nan = point_for_score anchors (PyFloat.val 0) ∧
    (anchors.length = 11 →
      ∀ s : PyFloat, ∃ p : Point, point_for_score anchors s = Except.ok p) := by
  refine ⟨?_, ?_, ?_, fun h s => pfs_ok anchors h s⟩
  · simp only [point_for_score, clamp_match]
    norm_num [clampQ]
  · simp only [point_for_score, clamp_match]
    norm_num [clampQ]
  · simp only [point_for_score, clamp_match]
    norm_num [clampQ]

/-- Witness for C3 at the demo anchor set. -/
theorem c3_clamping_w :
    point_for_score demo_anchor_0 PyFloat.nan =
        point_for_score demo_anchor_0 (PyFloat.val 0) ∧
    ∃ p : Point, point_for_score demo_anchor_0 (PyFloat.val (3 / 2)) = Except.ok p :=
  ⟨(c3_clamping demo_anchor_0).2.2.1,
   (c3_clamping demo_anchor_0).2.2.2 (by decide) (PyFloat.val (3 / 2))⟩

/-- C6: an anchor list whose length is not 11 makes `point_for_score` fail
with the anchor-count error for every score; with exactly 11 anchors that
error never occurs. -/
theorem c6_anchor_count (anchors : List Point) (s : PyFloat) :
    (anchors.length ≠ 11 →
      point_for_score anchors s =
        Except.error "Each dimension must provide 11 points for scores 0..10") ∧
    (anchors.length = 11 →
      point_for_score anchors s ≠
        Except.error "Each dimension must provide 11 points for scores 0..10") := by
  constructor
  · intro h
    unfold point_for_score
    rw [if_pos h]
  · intro h
    obtain ⟨p, hp⟩ := pfs_ok anchors h s
    rw [hp]
    simp

/-- Witness for C6: the empty anchor list fails, the demo set does not. -/
theorem c6_anchor_count_w :
    point_for_score [] (PyFloat.val 0) =
      Except.error "Each dimension must provide 11 points for scores 0..10" ∧
    point_for_score demo_anchor_0 (PyFloat.val 0) ≠
      Except.error "Each dimension must provide 11 points for scores 0..10" :=
  ⟨(c6_anchor_count [] (PyFloat.val 0)).1 (by decide),
   (c6_anchor_count demo_anchor_0 (PyFloat.val 0)).2 (by decide)⟩

/-- C10: with exactly 11 anchors, `point_for_score` is total over every
float score — no exception for any value; +inf saturates to `anchors[10]`,
-inf and NaN yield `anchors[0]`. -/
theorem c10_total (anchors : List Point) (h : anchors.length = 11) :
    (∀ s : PyFloat, ∃ p : Point, point_for_score anchors s = Except.ok p) ∧
    point_for_score anchors PyFloat.inf = Except.ok (anchors.getD 10 (0, 0)) ∧
    point_for_score anchors PyFloat.ninf = Except.ok (anchors.getD 0 (0, 0)) ∧
    point_for_score anchors PyFloat.nan = Except.ok (anchors.getD 0 (0, 0)) := by
  refine ⟨pfs_ok anchors h, ?_, ?_, ?_⟩
  · rw [pfs_eq anchors _ h]
    have hc : clampQ PyFloat.inf = ((10 : ℤ) : ℚ) := by norm_num [clampQ]
    rw [hc, pfs_int_shortcut anchors h 10 (by norm_num) (by norm_num)]
    rfl
  · rw [pfs_eq anchors _ h]
    have hc : clampQ PyFloat.ninf = ((0 : ℤ) : ℚ) := by norm_num [clampQ]
    rw [hc, pfs_int_shortcut anchors h 0 (by norm_num) (by norm_num)]
    rfl
  · rw [pfs_eq anchors _ h]
    have hc : clampQ PyFloat.nan = ((0 : ℤ) : ℚ) := by norm_num [clampQ]
    rw [hc, pfs_int_shortcut anchors h 0 (by norm_num) (by norm_num)]
    rfl

/-- Witness for C10 at the demo anchor set. -/
theorem c10_total_w :
    (∃ p : Point, point_for_score demo_anchor_0 (PyFloat.val 20) = Except.ok p) ∧
    point_for_score demo_anchor_0 PyFloat.inf = Except.ok (770, 825) := by
  obtain ⟨hall, hinf, hninf, hnan⟩ := c10_total demo_anchor_0 (by decide)
  exact ⟨hall (PyFloat.val 20), by rw [hinf]; rfl⟩

/-- C1 (amended): for 11 anchors and a clamped score `q` in `[0, 10]`, with
`lo = floor(q + 1e-9)`, `hi = min(lo + 1, 10)` and `t = q - lo` — the code's
fractional remainder, not `q - floor(q)` as the claim words it — whenever
`t` exceeds the `1e-9` tolerance the result is the linear interpolation
from `anchors[lo]` to `anchors[hi]` at `t`, each coordinate rounded to the
nearest integer half-to-even. -/
theorem c1_interpolation (anchors : List Point) (h : anchors.length = 11)
    (q : ℚ) (h0 : 0 ≤ q) (h1 : q ≤ 10) (ht : eps < q - ⌊q + eps⌋) :
    point_for_score anchors (PyFloat.val q) =
      Except.ok
        (roundHalfEven (interp_point (anchors.getD (⌊q + eps⌋).toNat (0, 0))
            (anchors.getD (min (⌊q + eps⌋ + 1) 10).toNat (0, 0)) (q - ⌊q + eps⌋)).1,
         roundHalfEven (interp_point (anchors.getD (⌊q + eps⌋).toNat (0, 0))
            (anchors.getD (min (⌊q + eps⌋ + 1) 10).toNat (0, 0)) (q - ⌊q + eps⌋)).2) := by
  rw [pfs_eq anchors _ h]
  have hc : clampQ (PyFloat.val q) = q := by
    have hu : clampQ (PyFloat.val q) = max 0 (min 10 q) := rfl
    rw [hu, min_eq_right h1, max_eq_right h0]
  rw [hc]
  have hl0 := lo_lb q h0
  have heps : (0 : ℚ) < eps := by unfold eps; norm_num
  have hlq : (⌊q + eps⌋ : ℚ) < q := by linarith
  have hl9 : ⌊q + eps⌋ ≤ 9 := by
    have hq10 : (⌊q + eps⌋ : ℚ) < 10 := lt_of_lt_of_le hlq h1
    have : ⌊q + eps⌋ < 10 := by exact_mod_cast hq10
    omega
  have hmin : min (⌊q + eps⌋ + 1) 10 = ⌊q + eps⌋ + 1 := min_eq_left (by omega)
  have htn : (⌊q + eps⌋ + 1).toNat = (⌊q + eps⌋).toNat + 1 := by omega
  rw [hmin, htn, pfsCore_interp anchors q h h0 h1 ht]

/-- Witness for C1: the demo anchor set at score 1.5 interpolates between
anchors 1 and 2 to `(770, 1145)`. -/
theorem c1_interpolation_w :
    point_for_score demo_anchor_0 (PyFloat.val (3 / 2)) = Except.ok (770, 1145) := by
  have hfl : ⌊(3 / 2 : ℚ) + eps⌋ = 1 := by
    rw [Int.floor_eq_iff]
    constructor <;> push_cast <;> norm_num [eps]
  have hres := c1_interpolation demo_anchor_0 (by decide) (3 / 2) (by norm_num)
    (by norm_num) (by rw [hfl]; norm_num [eps])
  rw [hres, hfl]
  have hint : interp_point (demo_anchor_0.getD (1 : ℤ).toNat (0, 0))
      (demo_anchor_0.getD (min ((1 : ℤ) + 1) 10).toNat (0, 0)) ((3 / 2 : ℚ) - (1 : ℤ)) =
      (770, 1145) := by
    show interp_point (770, 1167) (770, 1123) ((3 / 2 : ℚ) - (1 : ℤ)) = (770, 1145)
    unfold interp_point
    norm_num
  rw [hint]
  have hx : roundHalfEven ((770, 1145) : ℚ × ℚ).1 = 770 := by
    show roundHalfEven (770 : ℚ) = 770
    simp [roundHalfEven, Int.floor_intCast]
  have hy : roundHalfEven ((770, 1145) : ℚ × ℚ).2 = 1145 := by
    show roundHalfEven (1145 : ℚ) = 1145
    simp [roundHalfEven, Int.floor_intCast]
  rw [hx, hy]

/-- C1 counterexample: at the in-range score `2 - 5e-10` the claim's
fractional part `s - floor(s) = 1 - 5e-10` is not within the `1e-9`
tolerance of 0, so the claim demands the interpolation formula with
`lo = floor(s + 1e-9) = 2` and `hi = 3`, whose x coordinate rounds to 300;
the code instead takes the near-integer shortcut (its own remainder
`s - lo` is negative there) and returns `anchors[2] = (200, 0)`. -/
theorem c1_counterexample :
    (0 : ℚ) ≤ cexScore ∧ cexScore ≤ 10 ∧
    eps < cexScore - ⌊cexScore⌋ ∧
    cex_anchors.length = 11 ∧
    point_for_score cex_anchors (PyFloat.val cexScore) = Except.ok (200, 0) ∧
    roundHalfEven (interp_point (cex_anchors.getD (⌊cexScore + eps⌋).toNat (0, 0))
        (cex_anchors.getD (min (⌊cexScore + eps⌋ + 1) 10).toNat (0, 0))
        (cexScore - ⌊cexScore⌋)).1 = 300 ∧
    ((200 : ℤ), (0 : ℤ)) ≠ ((300 : ℤ), (0 : ℤ)) := by
  have h0 : (0 : ℚ) ≤ cexScore := by norm_num [cexScore]
  have h1 : cexScore ≤ 10 := by norm_num [cexScore]
  have hfl : ⌊cexScore⌋ = 1 := by
    rw [Int.floor_eq_iff]
    constructor <;> push_cast <;> norm_num [cexScore]
  have hfle : ⌊cexScore + eps⌋ = 2 := by
    rw [Int.floor_eq_iff]
    constructor <;> push_cast <;> norm_num [cexScore, eps]
  refine ⟨h0, h1, ?_, by decide, ?_, ?_, by decide⟩
  · rw [hfl]
    push_cast
    norm_num [cexScore, eps]
  · rw [pfs_eq _ _ (by decide)]
    have hc : clampQ (PyFloat.val cexScore) = cexScore := by
      have hu : clampQ (PyFloat.val cexScore) = max 0 (min 10 cexScore) := rfl
      rw [hu, min_eq_right h1, max_eq_right h0]
    rw [hc, pfsCore_shortcut cex_anchors cexScore (by decide) h0 h1
      (Or.inl (by rw [hfle]; push_cast; norm_num [cexScore, eps]))]
    rw [hfle]
    rfl
  · rw [hfl, hfle]
    have hmin : min ((2 : ℤ) + 1) 10 = 3 := by decide
    rw [hmin]
    have hget2 : cex_anchors.getD ((2 : ℤ)).toNat (0, 0) = (200, 0) := rfl
    have hget3 : cex_anchors.getD ((3 : ℤ)).toNat (0, 0) = (300, 0) := rfl
    rw [hget2, hget3]
    have hint : (interp_point ((200 : ℤ), (0 : ℤ)) ((300 : ℤ), (0 : ℤ))
        (cexScore - ((1 : ℤ) : ℚ))).1 = 300 - 1 / 20000000 := by
      unfold interp_point cexScore
      push_cast
      ring
    rw [hint]
    have hfv : ⌊(300 : ℚ) - 1 / 20000000⌋ = 299 := by
      rw [Int.floor_eq_iff]
      constructor <;> push_cast <;> norm_num
    simp only [roundHalfEven]
    rw [hfv]
    rw [if_neg (by push_cast; norm_num), if_pos (by push_cast; norm_num)]
    decide

/-- C5: for 11 anchors and any score `q` in `[0, 10]`, each coordinate of
the result lies between the corresponding coordinates of `anchors[floor q]`
and `anchors[ceil q]` inclusive (no overshoot beyond the segment's
endpoints); and with all 11 anchors equal to `(500, 500)`, every score —
NaN and infinities included — yields the vertex `(500, 500)`. -/
theorem c5_no_overshoot :
    (∀ (anchors : List Point), anchors.length = 11 → ∀ q : ℚ, 0 ≤ q → q ≤ 10 →
      ∃ p : Point, point_for_score anchors (PyFloat.val q) = Except.ok p ∧
        min (anchors.getD (⌊q⌋).toNat (0, 0)).1 (anchors.getD (⌈q⌉).toNat (0, 0)).1 ≤ p.1 ∧
        p.1 ≤ max (anchors.getD (⌊q⌋).toNat (0, 0)).1 (anchors.getD (⌈q⌉).toNat (0, 0)).1 ∧
        min (anchors.getD (⌊q⌋).toNat (0, 0)).2 (anchors.getD (⌈q⌉).toNat (0, 0)).2 ≤ p.2 ∧
        p.2 ≤ max (anchors.getD (⌊q⌋).toNat (0, 0)).2 (anchors.getD (⌈q⌉).toNat (0, 0)).2) ∧
    (∀ s : PyFloat,
      point_for_score (List.replicate 11 ((500 : ℤ), (500 : ℤ))) s =
        Except.ok (500, 500)) := by
  have main : ∀ (anchors : List Point), anchors.length = 11 → ∀ q : ℚ, 0 ≤ q → q ≤ 10 →
      ∃ p : Point, point_for_score anchors (PyFloat.val q) = Except.ok p ∧
        min (anchors.getD (⌊q⌋).toNat (0, 0)).1 (anchors.getD (⌈q⌉).toNat (0, 0)).1 ≤ p.1 ∧
        p.1 ≤ max (anchors.getD (⌊q⌋).toNat (0, 0)).1 (anchors.getD (⌈q⌉).toNat (0, 0)).1 ∧
        min (anchors.getD (⌊q⌋).toNat (0, 0)).2 (anchors.getD (⌈q⌉).toNat (0, 0)).2 ≤ p.2 ∧
        p.2 ≤ max (anchors.getD (⌊q⌋).toNat (0, 0)).2 (anchors.getD (⌈q⌉).toNat (0, 0)).2 := by
    intro anchors h q h0 h1
    have hc : clampQ (PyFloat.val q) = q := by
      have hu : clampQ (PyFloat.val q) = max 0 (min 10 q) := rfl
      rw [hu, min_eq_right h1, max_eq_right h0]
    rw [pfs_eq anchors _ h, hc]
    by_cases hb : q - ⌊q + eps⌋ ≤ eps ∨ (⌊q + eps⌋ : ℤ) = min (⌊q + eps⌋ + 1) 10
    · have hres := pfsCore_shortcut anchors q h h0 h1 hb
      rcases lo_floor_or_ceil q with hl | hl
      · rw [hl] at hres
        exact ⟨_, hres, min_le_left _ _, le_max_left _ _, min_le_left _ _,
          le_max_left _ _⟩
      · rw [hl] at hres
        exact ⟨_, hres, min_le_right _ _, le_max_right _ _, min_le_right _ _,
          le_max_right _ _⟩
    · push_neg at hb
      obtain ⟨ht, _⟩ := hb
      have hl0 := lo_lb q h0
      have heps : (0 : ℚ) < eps := by unfold eps; norm_num
      have hlq : (⌊q + eps⌋ : ℚ) < q := by linarith
      have hfl : ⌊q + eps⌋ = ⌊q⌋ :=
        le_antisymm (Int.le_floor.mpr hlq.le) (lo_ge_floor q)
      have hql : (⌊q⌋ : ℚ) < q := by rw [← hfl]; exact hlq
      have hceil : ⌈q⌉ = ⌊q⌋ + 1 := by
        rw [Int.ceil_eq_iff]
        constructor
        · push_cast; linarith
        · push_cast
          have := Int.lt_floor_add_one q
          linarith
      have hfn : 0 ≤ ⌊q⌋ := Int.floor_nonneg.mpr h0
      have hcn : (⌈q⌉).toNat = (⌊q⌋).toNat + 1 := by omega
      have ht0 : 0 ≤ q - ⌊q + eps⌋ := by linarith
      have ht1 : q - ⌊q + eps⌋ ≤ 1 := by
        rw [hfl]
        have := Int.lt_floor_add_one q
        push_cast at this ⊢
        linarith
      have hres := pfsCore_interp anchors q h h0 h1 ht
      rw [hfl] at hres
      have hx := roundHE_interp_fst (anchors.getD (⌊q⌋).toNat (0, 0))
        (anchors.getD ((⌊q⌋).toNat + 1) (0, 0)) (q - ⌊q + eps⌋) ht0 ht1
      have hy := roundHE_interp_snd (anchors.getD (⌊q⌋).toNat (0, 0))
        (anchors.getD ((⌊q⌋).toNat + 1) (0, 0)) (q - ⌊q + eps⌋) ht0 ht1
      rw [hfl] at hx hy
      rw [hcn]
      exact ⟨_, hres, hx.1, hx.2, hy.1, hy.2⟩
  refine ⟨main, ?_⟩
  intro s
  have hlen : (List.replicate 11 ((500 : ℤ), (500 : ℤ))).length = 11 := by simp
  rw [pfs_norm _ hlen s]
  obtain ⟨hq0, hq1⟩ := clampQ_mem s
  obtain ⟨p, hp, hx1, hx2, hy1, hy2⟩ := main _ hlen (clampQ s) hq0 hq1
  have hrep : ∀ i : ℕ, i < 11 →
      (List.replicate 11 ((500 : ℤ), (500 : ℤ))).getD i (0, 0) = (500, 500) := by
    intro i hi
    interval_cases i <;> rfl
  have hfn : 0 ≤ ⌊clampQ s⌋ := Int.floor_nonneg.mpr hq0
  have hfu : ⌊clampQ s⌋ ≤ 10 := by
    have h10 : ⌊clampQ s⌋ ≤ ⌊(10 : ℚ)⌋ := Int.floor_le_floor hq1
    simpa using h10
  have hcu : ⌈clampQ s⌉ ≤ 10 := by
    have h10 : ⌈clampQ s⌉ ≤ ⌈(10 : ℚ)⌉ := Int.ceil_le_ceil hq1
    simpa using h10
  have hif : (⌊clampQ s⌋).toNat < 11 := by omega
  have hic : (⌈clampQ s⌉).toNat < 11 := by omega
  rw [hrep _ hif, hrep _ hic] at hx1 hx2 hy1 hy2
  have hp1 : p.1 = 500 := le_antisymm (by simpa using hx2) (by simpa using hx1)
  have hp2 : p.2 = 500 := le_antisymm (by simpa using hy2) (by simpa using hy1)
  rw [hp]
  have : p = (500, 500) := Prod.ext hp1 hp2
  rw [this]

/-- Witness for C5: the demo anchor set at score one half, and the
degenerate all-equal anchors at NaN. -/
theorem c5_no_overshoot_w :
    (∃ p : Point,
      point_for_score demo_anchor_0 (PyFloat.val (1 / 2)) = Except.ok p ∧
        min (demo_anchor_0.getD (⌊(1 / 2 : ℚ)⌋).toNat (0, 0)).1
            (demo_anchor_0.getD (⌈(1 / 2 : ℚ)⌉).toNat (0, 0)).1 ≤ p.1 ∧
        p.1 ≤ max (demo_anchor_0.getD (⌊(1 / 2 : ℚ)⌋).toNat (0, 0)).1
            (demo_anchor_0.getD (⌈(1 / 2 : ℚ)⌉).toNat (0, 0)).1 ∧
        min (demo_anchor_0.getD (⌊(1 / 2 : ℚ)⌋).toNat (0, 0)).2
            (demo_anchor_0.getD (⌈(1 / 2 : ℚ)⌉).toNat (0, 0)).2 ≤ p.2 ∧
        p.2 ≤ max (demo_anchor_0.getD (⌊(1 / 2 : ℚ)⌋).toNat (0, 0)).2
            (demo_anchor_0.getD (⌈(1 / 2 : ℚ)⌉).toNat (0, 0)).2) ∧
    point_for_score (List.replicate 11 ((500 : ℤ), (500 : ℤ))) PyFloat.nan =
      Except.ok (500, 500) :=
  ⟨c5_no_overshoot.1 demo_anchor_0 (by decide) (1 / 2) (by norm_num) (by norm_num),
   c5_no_overshoot.2 PyFloat.nan⟩

theorem except_ok_bind {e a b : Type} (x : a) (f : a → Except e b) :
    (Except.ok x >>= f : Except e b) = f x := rfl

theorem pfs_demo_zero :
    point_for_score demo_anchor_0 (PyFloat.val 0) = Except.ok (770, 1210) := by
  rw [pfs_eq _ _ (by decide)]
  have hc : clampQ (PyFloat.val 0) = ((0 : ℤ) : ℚ) := by
    have hu : clampQ (PyFloat.val 0) = max 0 (min 10 0) := rfl
    rw [hu]; norm_num
  rw [hc, pfs_int_shortcut _ (by decide) 0 (by norm_num) (by norm_num)]
  rfl

theorem pfs_demo_one :
    point_for_score demo_anchor_0 (PyFloat.val 1) = Except.ok (770, 1167) := by
  rw [pfs_eq _ _ (by decide)]
  have hc : clampQ (PyFloat.val 1) = ((1 : ℤ) : ℚ) := by
    have hu : clampQ (PyFloat.val 1) = max 0 (min 10 1) := rfl
    rw [hu]; norm_num
  rw [hc, pfs_int_shortcut _ (by decide) 1 (by norm_num) (by norm_num)]
  rfl

theorem draw_radar_eval (measure : PyFloat → ℤ × ℤ) (width height : ℤ)
    (s : PyFloat) (p : Point) (fs : ℤ) (lp : List Point) (nt : List String)
    (tp : List Point) (hp : point_for_score demo_anchor_0 s = Except.ok p) :
    draw_radar_by_anchors measure width height (List.replicate 6 s) fs
      (List.replicate 6 demo_anchor_0) lp nt tp =
      Except.ok (List.replicate 6 p,
        (lp.zip (List.replicate 6 s)).map
          (fun ps => draw_label ps.1 (measure ps.2).1 (measure ps.2).2 width height),
        tp.zip nt, ((220, 2000), fs)) := by
  unfold draw_radar_by_anchors
  rw [if_neg (by simp), if_neg (by simp)]
  have hz : (List.replicate 6 s).zip (List.replicate 6 demo_anchor_0) =
      List.replicate 6 (s, demo_anchor_0) := rfl
  have hm : (List.replicate 6 (s, demo_anchor_0)).mapM
      (fun sa : PyFloat × List Point => point_for_score sa.2 sa.1) =
      Except.ok (List.replicate 6 p) := by
    rw [show List.replicate 6 (s, demo_anchor_0) =
      [(s, demo_anchor_0), (s, demo_anchor_0), (s, demo_anchor_0),
       (s, demo_anchor_0), (s, demo_anchor_0), (s, demo_anchor_0)] from rfl]
    simp [List.mapM.loop, hp, except_ok_bind]
  rw [hz, hm]
  rfl

/-- C4 (amended): `draw_radar_by_anchors` validates only the scores count
and the anchors count, each raising the error that names the field, in
source order and before any drawing: a wrong scores count fails first, a
wrong anchors count (with 6 scores) fails second.  The label-position,
title and title-position counts are not validated. -/
theorem c4_validation (measure : PyFloat → ℤ × ℤ) (width height : ℤ)
    (scores : List PyFloat) (fs : ℤ) (anchors : List (List Point))
    (lp : List Point) (nt : List String) (tp : List Point) :
    (scores.length ≠ 6 →
      draw_radar_by_anchors measure width height scores fs anchors lp nt tp =
        Except.error "scores_0_to_10 must contain exactly 6 values") ∧
    (scores.length = 6 → anchors.length ≠ 6 →
      draw_radar_by_anchors measure width height scores fs anchors lp nt tp =
        Except.error "anchors must contain exactly 6 dimensions") := by
  constructor
  · intro h
    unfold draw_radar_by_anchors
    rw [if_pos h]
  · intro h6 ha
    unfold draw_radar_by_anchors
    rw [if_neg (by simp [h6]), if_pos ha]

/-- Witness for C4: five scores fail on the scores check; six scores with
no anchor sets fail on the anchors check. -/
theorem c4_validation_w :
    draw_radar_by_anchors (fun _ => ((0 : ℤ), (0 : ℤ))) 2000 3000
      (List.replicate 5 (PyFloat.val 0)) 9 [] [] [] [] =
      Except.error "scores_0_to_10 must contain exactly 6 values" ∧
    draw_radar_by_anchors (fun _ => ((0 : ℤ), (0 : ℤ))) 2000 3000
      (List.replicate 6 (PyFloat.val 0)) 9 [] [] [] [] =
      Except.error "anchors must contain exactly 6 dimensions" :=
  ⟨(c4_validation _ 2000 3000 _ 9 _ [] [] []).1 (by decide),
   (c4_validation _ 2000 3000 _ 9 _ [] [] []).2 (by decide) (by decide)⟩

/-- C4 counterexample: with 6 scores and 6 anchor sets but zero label
positions, zero titles and zero title positions, `draw_radar_by_anchors`
succeeds — no `ValidationError` is raised for those count mismatches, so
the claim that any mismatch in any of the five inputs fails is false. -/
theorem c4_counterexample :
    draw_radar_by_anchors (fun _ => ((0 : ℤ), (0 : ℤ))) 2000 3000
      (List.replicate 6 (PyFloat.val 0)) 9 (List.replicate 6 demo_anchor_0)
      [] [] [] =
      Except.ok (List.replicate 6 ((770 : ℤ), (1210 : ℤ)), [], [],
        ((220, 2000), 9)) := by
  rw [draw_radar_eval (fun _ => ((0 : ℤ), (0 : ℤ))) 2000 3000 (PyFloat.val 0)
    (770, 1210) 9 [] [] [] pfs_demo_zero]
  rfl

/-- C7 (amended): `add_avatar` center-crops to a square whose side is the
shorter dimension; the leading (left/top) crop offsets equal
`(dim - min_side) // 2`, the trailing sides take the remainder (one pixel
more when the difference is odd), and the square is resized to
`size × size`. -/
theorem c7_crop (w h size : ℕ) :
    (add_avatar_crop w h size).left = (w - min w h) / 2 ∧
    (add_avatar_crop w h size).top = (h - min w h) / 2 ∧
    (add_avatar_crop w h size).right - (add_avatar_crop w h size).left = min w h ∧
    (add_avatar_crop w h size).bottom - (add_avatar_crop w h size).top = min w h ∧
    w - (add_avatar_crop w h size).right = (w - min w h) - (w - min w h) / 2 ∧
    h - (add_avatar_crop w h size).bottom = (h - min w h) - (h - min w h) / 2 ∧
    (add_avatar_crop w h size).resize_to = (size, size) := by
  have hc : add_avatar_crop w h size =
      { left := (w - min w h) / 2, top := (h - min w h) / 2,
        right := (w - min w h) / 2 + min w h,
        bottom := (h - min w h) / 2 + min w h,
        resize_to := (size, size) } := rfl
  rw [hc]
  dsimp only
  refine ⟨rfl, rfl, by omega, by omega, by omega, by omega, rfl⟩

/-- C7 counterexample: for a 3x2 avatar the code crops columns `[0, 2)`,
so the left offset is 0 but the right offset is 1; the two side offsets do
not both equal `(longerDim - shorterDim) // 2 = 0` as the claim states. -/
theorem c7_counterexample :
    (add_avatar_crop 3 2 100).left = 0 ∧
    3 - (add_avatar_crop 3 2 100).right = 1 ∧
    (max 3 2 - min 3 2) / 2 = 0 ∧
    ¬ ((add_avatar_crop 3 2 100).left = (max 3 2 - min 3 2) / 2 ∧
       3 - (add_avatar_crop 3 2 100).right = (max 3 2 - min 3 2) / 2) := by
  decide

/-- C9: font loading is total and follows the ordered candidate list: for
every availability oracle the result is the first available candidate as a
truetype font of the requested size, or the built-in fallback when every
candidate fails; no outcome aborts rendering. -/
theorem c9_font_fallback (avail : String → Bool) (size : ℕ) :
    _load_font avail size =
      (match font_candidates.find? avail with
       | some c => LoadedFont.truetype c size
       | none => LoadedFont.fallback) := by
  unfold _load_font font_candidates
  by_cases h1 : avail "msyh.ttc" <;> by_cases h2 : avail "Microsoft YaHei.ttf" <;>
    by_cases h3 : avail "simhei.ttf" <;> by_cases h4 : avail "arial.ttf" <;>
    simp [load_font_loop, List.find?, h1, h2, h3, h4]

/-- C8: each score label's text is placed at the requested position
clamped into `[0, width - tw - 8] x [0, height - th - 8]` (8px
right/bottom margin, `max 0` floor), then drawn 26px above the clamped `y`
with no re-clamp after the offset; and in every successful render the
label list is exactly this geometry applied to each (position, score)
pair. -/
theorem c8_label_clamp :
    (∀ (pos : Point) (tw th width height : ℤ),
      (draw_label pos tw th width height).textPos =
        ((label_clamp_spec pos tw th width height).1,
         (label_clamp_spec pos tw th width height).2 - 26)) ∧
    (∀ (measure : PyFloat → ℤ × ℤ) (width height : ℤ) (scores : List PyFloat)
        (fs : ℤ) (anchors : List (List Point)) (lp : List Point)
        (nt : List String) (tp : List Point) (pts : List Point)
        (labels : List LabelDraw) (titles : List (Point × String))
        (extra : Point × ℤ),
      draw_radar_by_anchors measure width height scores fs anchors lp nt tp =
        Except.ok (pts, labels, titles, extra) →
      labels = (lp.zip scores).map
        (fun ps => draw_label ps.1 (measure ps.2).1 (measure ps.2).2 width height)) := by
  constructor
  · intro pos tw th width height
    rfl
  · intro measure width height scores fs anchors lp nt tp pts labels titles extra hok
    unfold draw_radar_by_anchors at hok
    by_cases h6 : scores.length ≠ 6
    · rw [if_pos h6] at hok
      exact absurd hok (by simp)
    · rw [if_neg h6] at hok
      by_cases ha : anchors.length ≠ 6
      · rw [if_pos ha] at hok
        exact absurd hok (by simp)
      · rw [if_neg ha] at hok
        cases hm : (scores.zip anchors).mapM
            (fun sa : PyFloat × List Point => point_for_score sa.2 sa.1) with
        | error e =>
            rw [hm] at hok
            exact absurd hok (by simp [Except.bind])
        | ok points =>
            rw [hm, except_ok_bind] at hok
            have hinj := Except.ok.inj hok
            exact (congrArg (fun t => t.2.1) hinj).symm

/-- Witness for C8: a concrete label placement and a concrete successful
render with an empty label-position list. -/
theorem c8_label_clamp_w :
    (draw_label (2500, -40) 50 40 2000 3000).textPos =
      ((label_clamp_spec (2500, -40) 50 40 2000 3000).1,
       (label_clamp_spec (2500, -40) 50 40 2000 3000).2 - 26) ∧
    ([] : List LabelDraw) =
      (([] : List Point).zip (List.replicate 6 (PyFloat.val 1))).map
        (fun ps => draw_label ps.1 ((fun _ : PyFloat => ((0 : ℤ), (0 : ℤ))) ps.2).1
          ((fun _ : PyFloat => ((0 : ℤ), (0 : ℤ))) ps.2).2 2000 3000) := by
  constructor
  · exact c8_label_clamp.1 (2500, -40) 50 40 2000 3000
  · exact c8_label_clamp.2 (fun _ => ((0 : ℤ), (0 : ℤ))) 2000 3000
      (List.replicate 6 (PyFloat.val 1)) 9 (List.replicate 6 demo_anchor_0)
      [] [] [] (List.replicate 6 (770, 1167)) [] [] ((220, 2000), 9)
      (by rw [draw_radar_eval (fun _ => ((0 : ℤ), (0 : ℤ))) 2000 3000
        (PyFloat.val 1) (770, 1167) 9 [] [] [] pfs_demo_one]; rfl)
